import Mathlib

/-!
Shallow embedding of the scene-composition and master-render pipeline of
`src/video_editor.py` (class VideoEditor).  Durations are modelled as exact
rationals; file-system facts (does `audio_{idx}.mp3` exist, does the visual
asset exist, is it an image) are carried as fields of an abstract `Scene`
record, so that `process_scene` and `render_final_video` can be traced as
pure functions of the scene list.
-/

namespace VideoEditor

/-- One scene as seen by `process_scene`: whether its narration audio file
`audio_{idx}.mp3` exists and loads, the narration duration, whether a visual
asset (video or still image) was resolved, whether that asset is a still
image, and the visual file's own duration (meaningful for videos only). -/
structure Scene where
  hasAudio : Bool
  audioDuration : ℚ
  hasVisual : Bool
  visualIsImage : Bool
  visualDuration : ℚ
  deriving DecidableEq, Repr

/-- The visual clip `process_scene` hands back to `render_final_video`:
`backgroundDuration` is the content length of the visual track after the
`subclip(0, min(audio, video))` trim, `clipDuration` the declared duration
after the final `set_duration(video_duration)` (the narration length). -/
structure SceneClip where
  backgroundDuration : ℚ
  clipDuration : ℚ
  deriving DecidableEq, Repr

/-- `process_scene` (video_editor.py:1303).  Returns `none` exactly on the
error paths of the source: missing narration audio, missing visual asset, a
still-image visual (see below), non-positive narration duration, or a
non-positive video duration.  The image branch (lines 1416-1424) passes the
locals `final_width`/`final_height` to `create_dynamic_image_clip`, but both
are first assigned only at line 1540, so Python raises `UnboundLocalError`
there; the `except` at lines 1427-1429 turns that into `return None` — every
still-image scene fails assembly before any duration is checked.  For a
video the background is trimmed to `min(audio_duration, video_duration)` and
the scene clip's declared duration is set to the narration duration
(`set_duration(video_duration)`). -/
def process_scene (s : Scene) : Option SceneClip :=
  if ¬ s.hasAudio then none
  else if ¬ s.hasVisual then none
  else if s.visualIsImage then none
  else
    let D := s.audioDuration
    if D ≤ 0 then none
    else if s.visualDuration ≤ 0 then none
    else some ⟨min D s.visualDuration, D⟩

/-- The per-scene loop of `render_final_video` followed by the aggressive
filter: scenes whose `process_scene` failed (appended as `None`) are dropped,
survivors keep their original order. -/
def collect_clips (scenes : List Scene) : List SceneClip :=
  scenes.filterMap process_scene

/-- Errors surfaced by `render_final_video` that abort the job before any
output file is written. -/
inductive RenderError where
  | NoValidScenes
  | InvalidMedia
  deriving DecidableEq, Repr

/-- The scene-collection stage of `render_final_video`
(video_editor.py:1820-1863): if no clip survives the aggressive filter the
job raises (`¡No hay clips válidos para renderizar!`) before any encode;
otherwise it proceeds with the surviving clips in order. -/
def render_scenes_stage (scenes : List Scene) : Except RenderError (List SceneClip) :=
  let fc := collect_clips scenes
  if fc.isEmpty then .error .NoValidScenes else .ok fc

/-- The full-audio loading loop of `render_final_video`
(video_editor.py:1868-1887): for **every** scene index `0..n-1`, if
`audio_{idx}.mp3` exists its duration is appended — whether or not the
scene's visual assembly succeeded. -/
def loadAudioClips : List Scene → List ℚ
  | [] => []
  | s :: rest =>
      if s.hasAudio then s.audioDuration :: loadAudioClips rest
      else loadAudioClips rest

/-- The validation pass over the loaded audio clips
(video_editor.py:1889-1905): clips with non-positive duration are filtered
out before `concatenate_audioclips`. -/
def validAudioClips (l : List ℚ) : List ℚ := l.filter (fun d => 0 < d)

/-- Durations of the audio clips concatenated into the master track, in
original scene order. -/
def fullAudioTrack (scenes : List Scene) : List ℚ :=
  validAudioClips (loadAudioClips scenes)

/-- `total_audio_duration`: the master track's duration `T`. -/
def totalAudioDuration (scenes : List Scene) : ℚ :=
  (fullAudioTrack scenes).sum

/-- Survivors of the per-scene stage paired with their original scene index:
used to state that order among survivors is the original scene order. -/
def survivors (scenes : List Scene) : List (ℕ × SceneClip) :=
  scenes.enum.filterMap (fun p => (process_scene p.2).map (fun c => (p.1, c)))

/-- Number of scenes whose assembly failed (a `None` was appended for them). -/
def failedCount (scenes : List Scene) : ℕ :=
  (scenes.filter (fun s => (process_scene s).isNone)).length

/-- `loops_needed = int(total_audio_duration / total_video_duration) + 1`
(video_editor.py:2079).  Both operands are positive at the call site, so
Python's truncating `int` agrees with the floor. -/
def loops_needed (audioDur videoDur : ℚ) : ℕ :=
  ⌊audioDur / videoDur⌋.toNat + 1

/-- Length of the looped visual sequence before the final trim:
`loops_needed` whole copies of the concatenated sequence
(video_editor.py:2082-2089). -/
def loopedPreTrim (T V : ℚ) : ℚ := (loops_needed T V : ℚ) * V

/-- The visual-conformance step of `render_final_video`
(video_editor.py:2074-2109), for a job that has a master audio track of
duration `T` and a concatenated visual sequence of duration `V`.
`subclip(0, T)` of a source of length `len` yields duration `min len T`. -/
def conform_visuals (T V : ℚ) : ℚ :=
  if V < T then min (loopedPreTrim T V) T
  else if T < V then min V T
  else V

/-- The background-music conformance of `render_final_video`
(video_editor.py:2144-2159): music shorter than the target is concatenated
`loops_needed` whole times and cut with `subclip(0, target)`; music not
shorter than the target is left untouched at this point. -/
def music_conformed_duration (musicLen T : ℚ) : ℚ :=
  if musicLen < T then min ((loops_needed T musicLen : ℚ) * musicLen) T
  else musicLen

/-- The music gain chosen by `render_final_video`
(video_editor.py:2161-2196): with narration present the music is ducked to
the hard-coded `0.1`; without narration it plays at `music_volume` when that
is positive, else at `1.0`. -/
def music_gain (hasNarration : Bool) (music_volume : ℚ) : ℚ :=
  if hasNarration then 1/10
  else if 0 < music_volume then music_volume else 1

/-- `_compute_position` inside the watermark block of `render_final_video`
(video_editor.py:2505-2521), with `margin_x = 50`, `margin_y = 100`. -/
def compute_position (pos : String) (W H elemW elemH : ℚ) : ℚ × ℚ :=
  if pos = "bottom-right" then (W - elemW - 50, H - elemH - 100)
  else if pos = "top-center" then ((W - elemW) / 2, 100)
  else if pos = "bottom-left" then (50, H - elemH - 100)
  else if pos = "top-right" then (W - elemW - 50, 100)
  else (W - elemW - 50, H - elemH - 100)

/-- The fixed parameters of the final `write_videofile` call
(video_editor.py:2609-2612 and 2760-2771). -/
structure EncodeSettings where
  fps : ℕ
  codec : String
  audioCodec : String
  videoBitrate : String
  audioBitrate : String
  deriving DecidableEq, Repr

/-- Settings handed to `write_videofile`: `video_bitrate = bitrate or
"15000k"` (Python truthiness: `None` and the empty string both fall back to
the default), `audio_bitrate = "320k"`, `fps=60`, `codec='libx264'`,
`audio_codec='aac'`. -/
def encode_settings (bitrate : Option String) : EncodeSettings :=
  { fps := 60
    codec := "libx264"
    audioCodec := "aac"
    videoBitrate :=
      match bitrate with
      | none => "15000k"
      | some b => if b = "" then "15000k" else b
    audioBitrate := "320k" }

/-! ### Caption layout: `generate_karaoke_subtitles` (video_editor.py:1085) -/

/-- A `(word, start, end)` triple from the speech-alignment collaborator. -/
structure CaptionWord where
  text : String
  start : ℚ
  stop : ℚ
  deriving DecidableEq, Repr

/-- The observable attributes of one word overlay produced by
`generate_karaoke_subtitles`: font size, whether it got the highlight style,
its start time and duration, and its vertical anchor. -/
structure Overlay where
  fontsize : ℕ
  highlighted : Bool
  start : ℚ
  dur : ℚ
  y : ℚ
  deriving DecidableEq, Repr

/-- `base_fontsize = 70`. -/
def base_fontsize : ℕ := 70

/-- `highlight_fontsize = int(base_fontsize * 1.3)` = 91. -/
def highlight_fontsize : ℕ := base_fontsize * 13 / 10

/-- The line grouper: `current_line_words` is flushed as soon as it holds
`words_per_line = 5` words, or at the final word, so the word list is cut
into successive groups of five with one trailing partial group. -/
def chunk5 : List CaptionWord → List (List CaptionWord)
  | [] => []
  | a :: b :: c :: d :: e :: rest => [a, b, c, d, e] :: chunk5 rest
  | l => [l]

/-- One word's overlay: highlight style iff the word is the active one of its
line; the clip spans `set_start(w_start).set_duration(w_end - w_start)` and
sits at the line's vertical anchor `y`. -/
def mkWordOverlay (y : ℚ) (active : Bool) (w : CaptionWord) : Overlay :=
  { fontsize := if active then highlight_fontsize else base_fontsize
    highlighted := active
    start := w.start
    dur := w.stop - w.start
    y := y }

/-- The inner loop over one line: word `j` is active iff
`j == len(current_line_words) - 1`. -/
def lineOverlaysAux (y : ℚ) (lastIdx : ℕ) : ℕ → List CaptionWord → List Overlay
  | _, [] => []
  | j, w :: ws => mkWordOverlay y (j == lastIdx) w :: lineOverlaysAux y lastIdx (j + 1) ws

/-- Overlays of one grouped line. -/
def lineOverlays (y : ℚ) (line : List CaptionWord) : List Overlay :=
  lineOverlaysAux y (line.length - 1) 0 line

/-- `y_position = int(height * 0.85)`; the float-to-int truncation is
abstracted to the exact rational `0.85 * height`. -/
def karaoke_y (height : ℕ) : ℚ := (85 * height : ℚ) / 100

/-- `generate_karaoke_subtitles`: words grouped into lines of five (last line
partial), each word one timed overlay. -/
def generate_karaoke_subtitles (words : List CaptionWord) (height : ℕ) : List Overlay :=
  (chunk5 words).flatMap (lineOverlays (karaoke_y height))

/-! ### Image animator: `create_dynamic_image_clip` (video_editor.py:515) -/

/-- `zoom_end = 1.1 if zoom_effect == "in" else 0.9`. -/
def zoom_end (zoom_effect : String) : ℚ :=
  if zoom_effect = "in" then 11/10 else 9/10

/-- `zoom_func` with the ease-in-out progress
`s = 0.5 * (1 - cos(pi * t / duration))` abstracted as a parameter
`s ∈ [0, 1]` (s = 0 at t = 0, s = 1 at t = duration):
`zoom = zoom_start + (zoom_end - zoom_start) * s`, `zoom_start = 1.0`. -/
def zoom_factor (zoom_effect : String) (s : ℚ) : ℚ :=
  1 + (zoom_end zoom_effect - 1) * s

/-- `pan_enabled = img_aspect > 1.3`. -/
def pan_enabled (imgW imgH : ℚ) : Bool := imgW / imgH > 13/10

/-- `pan_range = max(0, int(new_width * zoom_end) - target_width)`. -/
def pan_range (newW targetW : ℚ) (zoom_effect : String) : ℚ :=
  max 0 ((⌊newW * zoom_end zoom_effect⌋ : ℚ) - targetW)

/-- `pan_func` at eased progress `s`: `x_pos = pan_range * smooth_progress`. -/
def pan_offset (newW targetW : ℚ) (zoom_effect : String) (s : ℚ) : ℚ :=
  pan_range newW targetW zoom_effect * s

/-! ### Sanitization boundary: `validar_clip_recursivo` /
`limpiar_audio_invalido` (video_editor.py:2617-2714) and their use before the
encode (video_editor.py:2737-2754). -/

/-- An audio node: `anull` models a Python `None` in an audio child slot;
`araw` a plain audio clip which may or may not expose `get_frame`;
`acomposite` a `CompositeAudioClip` (which always has `get_frame`);
`asilence` a generated silent clip of the given duration — produced only by
the spec-worded sanitizer model, never by the code. -/
inductive AClip where
  | anull
  | araw (hasGetFrame : Bool)
  | acomposite (children : List AClip)
  | asilence (duration : ℚ)

/-- `hasattr(x, 'get_frame')` for audio nodes (`anull` is Python `None`). -/
def hasGetFrameA : AClip → Bool
  | .anull => false
  | .araw b => b
  | .acomposite _ => true
  | .asilence _ => true

/-- A video node: `vnull` is Python `None`; `vraw` a plain clip (with
`get_frame` or not) carrying an optional audio attachment; `vcomposite` a
`CompositeVideoClip` with its child list and optional audio. -/
inductive VClip where
  | vnull
  | vraw (hasGetFrame : Bool) (audio : Option AClip)
  | vcomposite (children : List VClip) (audio : Option AClip)

/-- The audio check of `validar_clip_recursivo`: when the clip has an audio
attachment that is a composite with a non-empty child list, every child must
be non-`None` and expose `get_frame`; any other audio shape passes. -/
def audioChildrenOk : Option AClip → Bool
  | none => true
  | some (.acomposite cs) => cs.isEmpty || cs.all hasGetFrameA
  | some _ => true

mutual
/-- `validar_clip_recursivo`: `None` fails, a clip without `get_frame`
fails, composite children are validated recursively (an empty child list is
skipped, as `clip.clips` is then falsy), then the audio attachment is
checked one level deep. -/
def validar : VClip → Bool
  | .vnull => false
  | .vraw hg audio => hg && audioChildrenOk audio
  | .vcomposite cs audio => validarList cs && audioChildrenOk audio

/-- The `for sub_clip in clip.clips` loop of `validar_clip_recursivo`. -/
def validarList : List VClip → Bool
  | [] => true
  | c :: cs => validar c && validarList cs
end

/-- The audio-invalidity test of `limpiar_audio_invalido`: a composite audio
with a non-empty child list is invalid iff some child is `None` or lacks
`get_frame`; otherwise the audio object itself must expose `get_frame`. -/
def audioInvalido : AClip → Bool
  | .acomposite cs => if cs.isEmpty then !hasGetFrameA (.acomposite cs) else !cs.all hasGetFrameA
  | a => !hasGetFrameA a

/-- The leaf branch of `limpiar_audio_invalido`: an invalid audio attachment
is removed outright (`clip.without_audio()`); nothing is substituted. -/
def clean_audio : Option AClip → Option AClip
  | none => none
  | some a => if audioInvalido a then none else some a

/-- Modelled from the claim's words (spec §4.1), for comparison with
`clean_audio`: an invalid audio attachment is *replaced by one second of
silence* rather than removed. -/
def sanitize_audio_spec : Option AClip → Option AClip
  | none => none
  | some a => if audioInvalido a then some (.asilence 1) else some a

mutual
/-- `limpiar_audio_invalido`: `None` maps to `None`; a composite with a
non-empty child list has its children cleaned recursively, the `None`
results dropped, and is rebuilt (`CompositeVideoClip(clips_limpios)`, whose
audio attribute is freshly derived — modelled as `none`) when at least one
child survives, else it becomes `None`; any other clip keeps its shape with
an invalid audio attachment removed. -/
def limpiar : VClip → Option VClip
  | .vnull => none
  | .vraw hg audio => some (.vraw hg (clean_audio audio))
  | .vcomposite cs audio =>
      if cs.isEmpty then some (.vcomposite cs (clean_audio audio))
      else
        match limpiarList cs with
        | [] => none
        | c :: rest => some (.vcomposite (c :: rest) none)

/-- The `for sub_clip in clip.clips` loop of `limpiar_audio_invalido`. -/
def limpiarList : List VClip → List VClip
  | [] => []
  | c :: cs =>
      match limpiar c with
      | none => limpiarList cs
      | some c2 => c2 :: limpiarList cs
end

/-- The final sanitization boundary before `write_videofile`
(video_editor.py:2737-2754): validate; on failure clean and re-validate; a
clip that cannot be repaired raises before the encoder is ever invoked. -/
def sanitize_final (clip : VClip) : Except RenderError VClip :=
  if validar clip then .ok clip
  else
    match limpiar clip with
    | none => .error .InvalidMedia
    | some c2 => if validar c2 then .ok c2 else .error .InvalidMedia

/-! ## Theorems -/

/-- The master audio track is exactly the narration of the scenes whose
audio file exists and has positive duration, in original order. -/
theorem fullAudioTrack_eq (scenes : List Scene) :
    fullAudioTrack scenes
      = (scenes.filter (fun s => s.hasAudio && decide (0 < s.audioDuration))).map
          Scene.audioDuration := by
  induction scenes with
  | nil => rfl
  | cons s rest ih =>
    by_cases ha : s.hasAudio
    · by_cases hd : 0 < s.audioDuration
      · simpa [fullAudioTrack, loadAudioClips, validAudioClips, ha, hd] using ih
      · simpa [fullAudioTrack, loadAudioClips, validAudioClips, ha, hd] using ih
    · simpa [fullAudioTrack, loadAudioClips, validAudioClips, ha] using ih

/-- C1.  The claim fails on the code: `render_final_video` loads
`audio_{idx}.mp3` for every scene index, not only for surviving scenes.
Concrete input: scene 0 assembles (audio 2s, video 3s); scene 1 has a 4s
audio file but no visual asset, so its assembly fails — yet the master
track is `[2, 4]` with `T = 6`, while the surviving scenes' narration sums
to 2. -/
theorem C1_counterexample :
    process_scene ⟨true, 4, false, false, 0⟩ = none
    ∧ fullAudioTrack [⟨true, 2, true, false, 3⟩, ⟨true, 4, false, false, 0⟩] = [2, 4]
    ∧ totalAudioDuration [⟨true, 2, true, false, 3⟩, ⟨true, 4, false, false, 0⟩] = 6
    ∧ (([(⟨true, 2, true, false, 3⟩ : Scene), ⟨true, 4, false, false, 0⟩].filter
          (fun s => (process_scene s).isSome)).map Scene.audioDuration).sum = 2
    ∧ (6 : ℚ) ≠ 2 := by
  refine ⟨by decide, ?_, ?_, ?_, by norm_num⟩
  · norm_num [fullAudioTrack, loadAudioClips, validAudioClips]
  · norm_num [totalAudioDuration, fullAudioTrack, loadAudioClips, validAudioClips]
  · norm_num [process_scene, List.filter]

/-- C1 (amended).  The master audio track is the concatenation, in original
scene order, of the narration audio of **all** scenes whose audio file exists
and loads with positive duration — including scenes whose assembly failed —
and `T` is the sum of exactly those durations. -/
theorem C1_master_audio_includes_failed_scenes (scenes : List Scene) :
    fullAudioTrack scenes
        = (scenes.filter (fun s => s.hasAudio && decide (0 < s.audioDuration))).map
            Scene.audioDuration
    ∧ totalAudioDuration scenes
        = ((scenes.filter (fun s => s.hasAudio && decide (0 < s.audioDuration))).map
            Scene.audioDuration).sum
    ∧ ∀ s ∈ scenes, s.hasAudio = true → 0 < s.audioDuration → process_scene s = none →
        s.audioDuration ∈ fullAudioTrack scenes := by
  refine ⟨fullAudioTrack_eq scenes, ?_, ?_⟩
  · rw [totalAudioDuration, fullAudioTrack_eq scenes]
  · intro s hs ha hd _
    rw [fullAudioTrack_eq scenes]
    exact List.mem_map_of_mem Scene.audioDuration
      (List.mem_filter.mpr ⟨hs, by simp [ha, hd]⟩)

/-- Witness for C1 (amended) at the counterexample's job: scene 1 fails
assembly, yet its 4-second narration is a member of the master track. -/
theorem C1_master_audio_includes_failed_scenes_witness :
    (4 : ℚ) ∈ fullAudioTrack [⟨true, 2, true, false, 3⟩, ⟨true, 4, false, false, 0⟩] := by
  exact (C1_master_audio_includes_failed_scenes
      [⟨true, 2, true, false, 3⟩, ⟨true, 4, false, false, 0⟩]).2.2
    ⟨true, 4, false, false, 0⟩ (by decide) (by decide) (by decide) (by decide)

/-- `int(T/V) + 1` whole copies of a positive length `V` always reach `T`:
the pre-trim looped result is never shorter than the target. -/
theorem le_loops_needed_mul (T V : ℚ) (hT : 0 < T) (hV : 0 < V) :
    T ≤ (loops_needed T V : ℚ) * V := by
  unfold loops_needed
  have h0 : (0 : ℚ) ≤ T / V := le_of_lt (div_pos hT hV)
  have hfl : (0 : ℤ) ≤ ⌊T / V⌋ := Int.floor_nonneg.mpr h0
  have h1 : ((⌊T / V⌋.toNat : ℕ) : ℚ) = ((⌊T / V⌋ : ℤ) : ℚ) := by
    exact_mod_cast congrArg (fun z : ℤ => (z : ℚ)) (Int.toNat_of_nonneg hfl)
  rw [Nat.cast_add, Nat.cast_one, h1]
  have hlt : T / V < (⌊T / V⌋ : ℚ) + 1 := Int.lt_floor_add_one _
  have h2 := mul_lt_mul_of_pos_right hlt hV
  rw [div_mul_cancel₀ T (ne_of_gt hV)] at h2
  exact h2.le

/-- C2.  With a positive master audio duration `T` and positive concatenated
visual duration `V`: when `V < T` the whole sequence is repeated a whole
number (≥ 1) of times, the pre-trim looped length is at least `T`, and in
every case (`V < T`, `V > T`, `V = T`) the conformed visual duration equals
`T` exactly. -/
theorem C2_visuals_conform_to_master (T V : ℚ) (hT : 0 < T) (hV : 0 < V) :
    (V < T → T ≤ loopedPreTrim T V ∧ ∃ n : ℕ, 1 ≤ n ∧ loopedPreTrim T V = (n : ℚ) * V)
    ∧ conform_visuals T V = T := by
  have hpre : T ≤ loopedPreTrim T V := by
    unfold loopedPreTrim
    exact le_loops_needed_mul T V hT hV
  constructor
  · intro _
    exact ⟨hpre, loops_needed T V, Nat.le_add_left 1 _, rfl⟩
  · rcases lt_trichotomy V T with h | h | h
    · simp only [conform_visuals, if_pos h]
      exact min_eq_right hpre
    · simp [conform_visuals, h]
    · simp only [conform_visuals, if_neg (not_lt.mpr h.le), if_pos h]
      exact min_eq_right h.le

/-- Witness for C2 at Scenario B's numbers: `V = 6`, `T = 12`; the sequence
is looped 3 whole times to 18s ≥ 12s and trimmed to exactly 12s. -/
theorem C2_visuals_conform_to_master_witness :
    (12 : ℚ) ≤ loopedPreTrim 12 6 ∧ conform_visuals 12 6 = 12 :=
  ⟨((C2_visuals_conform_to_master 12 6 (by norm_num) (by norm_num)).1 (by norm_num)).1,
   (C2_visuals_conform_to_master 12 6 (by norm_num) (by norm_num)).2⟩

/-- Dropping the failed scenes: survivor count plus failure count is the
scene count. -/
theorem collect_length_add_failed (scenes : List Scene) :
    (collect_clips scenes).length + failedCount scenes = scenes.length := by
  induction scenes with
  | nil => rfl
  | cons s rest ih =>
    cases h : process_scene s with
    | none =>
      simp [collect_clips, failedCount, List.filterMap_cons, h, List.filter_cons] at *
      omega
    | some c =>
      simp [collect_clips, failedCount, List.filterMap_cons, h, List.filter_cons] at *
      omega

/-- The clips of the indexed survivor list are exactly the survivor clips. -/
theorem survivors_enumFrom_snd (l : List Scene) (i : ℕ) :
    ((List.enumFrom i l).filterMap
        (fun p => (process_scene p.2).map (fun c => (p.1, c)))).map Prod.snd
      = l.filterMap process_scene := by
  induction l generalizing i with
  | nil => rfl
  | cons s rest ih =>
    cases h : process_scene s with
    | none => simpa [List.enumFrom, List.filterMap_cons, h] using ih (i + 1)
    | some c => simpa [List.enumFrom, List.filterMap_cons, h] using ih (i + 1)

/-- Every original index attached by the survivor list of `enumFrom i` is at
least `i`. -/
theorem survivors_enumFrom_fst_ge (l : List Scene) (i : ℕ) :
    ∀ x ∈ ((List.enumFrom i l).filterMap
        (fun p => (process_scene p.2).map (fun c => (p.1, c)))).map Prod.fst, i ≤ x := by
  induction l generalizing i with
  | nil => intro x hx; simp [List.enumFrom] at hx
  | cons s rest ih =>
    intro x hx
    cases h : process_scene s with
    | none =>
      simp only [List.enumFrom, List.filterMap_cons, h, Option.map_none'] at hx
      exact le_trans (Nat.le_succ i) (ih (i + 1) x hx)
    | some c =>
      simp only [List.enumFrom, List.filterMap_cons, h, Option.map_some'] at hx
      rcases List.mem_map.mp hx with ⟨p, hp, rfl⟩
      rcases List.mem_cons.mp hp with rfl | hp'
      · exact le_refl i
      · exact le_trans (Nat.le_succ i)
          (ih (i + 1) _ (List.mem_map.mpr ⟨p, hp', rfl⟩))

/-- The original indices of the survivors are strictly increasing: survivor
order is original scene order. -/
theorem survivors_enumFrom_pairwise (l : List Scene) (i : ℕ) :
    List.Pairwise (· < ·) (((List.enumFrom i l).filterMap
        (fun p => (process_scene p.2).map (fun c => (p.1, c)))).map Prod.fst) := by
  induction l generalizing i with
  | nil => simp [List.enumFrom]
  | cons s rest ih =>
    cases h : process_scene s with
    | none => simpa [List.enumFrom, List.filterMap_cons, h] using ih (i + 1)
    | some c =>
      simp only [List.enumFrom, List.filterMap_cons, h, Option.map_some', List.map_cons]
      refine List.Pairwise.cons ?_ (ih (i + 1))
      intro x hx
      exact lt_of_lt_of_le (Nat.lt_succ_self i) (survivors_enumFrom_fst_ge rest (i + 1) x hx)

/-- C3.  The survivors' clips are the per-scene results in original order
(their attached original indices are strictly increasing); with `k` of `n`
scenes failing: if `k < n` the job proceeds with exactly the `n - k`
survivors, and if `k = n` it aborts with `NoValidScenes` before any output
is produced. -/
theorem C3_partial_failure_policy (scenes : List Scene) :
    (survivors scenes).map Prod.snd = collect_clips scenes
    ∧ List.Pairwise (· < ·) ((survivors scenes).map Prod.fst)
    ∧ (failedCount scenes < scenes.length →
        render_scenes_stage scenes = .ok (collect_clips scenes)
        ∧ (collect_clips scenes).length = scenes.length - failedCount scenes)
    ∧ (failedCount scenes = scenes.length →
        render_scenes_stage scenes = .error .NoValidScenes) := by
  have hlen := collect_length_add_failed scenes
  refine ⟨?_, ?_, ?_, ?_⟩
  · simpa [survivors, List.enum] using survivors_enumFrom_snd scenes 0
  · simpa [survivors, List.enum] using survivors_enumFrom_pairwise scenes 0
  · intro hk
    have hne : collect_clips scenes ≠ [] := by
      intro h
      rw [h] at hlen
      simp at hlen
      omega
    constructor
    · unfold render_scenes_stage
      simp [List.isEmpty_iff, hne]
    · omega
  · intro hk
    have h0 : (collect_clips scenes).length = 0 := by omega
    have h : collect_clips scenes = [] := List.length_eq_zero.mp h0
    unfold render_scenes_stage
    simp [h]

/-- Witness for C3 at Scenario C's shape: scene 1 of 3 has no visual asset;
the job succeeds with the 2 survivors. -/
theorem C3_partial_failure_policy_witness :
    render_scenes_stage
        [⟨true, 4, true, false, 5⟩, ⟨true, 5, false, false, 0⟩, ⟨true, 3, true, false, 4⟩]
      = .ok (collect_clips
        [⟨true, 4, true, false, 5⟩, ⟨true, 5, false, false, 0⟩, ⟨true, 3, true, false, 4⟩])
    ∧ (collect_clips
        [⟨true, 4, true, false, 5⟩, ⟨true, 5, false, false, 0⟩, ⟨true, 3, true, false, 4⟩]).length
      = 3 - failedCount
        [⟨true, 4, true, false, 5⟩, ⟨true, 5, false, false, 0⟩, ⟨true, 3, true, false, 4⟩] :=
  (C3_partial_failure_policy
    [⟨true, 4, true, false, 5⟩, ⟨true, 5, false, false, 0⟩, ⟨true, 3, true, false, 4⟩]).2.2.1
    (by decide)

/-- C4.  The code contradicts the claim (and its own intent) on the image
half: the image branch of `process_scene` references `final_width` and
`final_height` (video_editor.py:1420-1421) before their first assignment at
line 1540, so every still-image scene raises `UnboundLocalError`, which the
handler at 1427-1429 converts to `return None` — the scene always fails
instead of being delegated to the Image Animator with duration `D`.  The
video half of the claim does hold: a video visual is trimmed to
`min(D, visual_duration)`, never beyond either the visual's own length or
`D`, so never stretched or slowed. -/
theorem C4_image_branch_unbound_local (s : Scene) :
    (s.visualIsImage = true → process_scene s = none)
    ∧ (s.hasAudio = true → s.hasVisual = true → s.visualIsImage = false →
        0 < s.audioDuration → 0 < s.visualDuration →
        process_scene s = some ⟨min s.audioDuration s.visualDuration, s.audioDuration⟩
        ∧ min s.audioDuration s.visualDuration ≤ s.visualDuration
        ∧ min s.audioDuration s.visualDuration ≤ s.audioDuration) := by
  refine ⟨?_, ?_⟩
  · intro hi
    by_cases ha : s.hasAudio
    · by_cases hv : s.hasVisual
      · simp [process_scene, ha, hv, hi]
      · simp [process_scene, ha, hv]
    · simp [process_scene, ha]
  · intro ha hv hi hD hvd
    refine ⟨?_, min_le_right _ _, min_le_left _ _⟩
    simp [process_scene, ha, hv, hi, not_le.mpr hD, not_le.mpr hvd]

/-- Witness for C4 at the failing input: a still-image scene with a valid
3s narration is dropped, while a 5s-narration scene with a 2s video trims
to `min 5 2`. -/
theorem C4_image_branch_unbound_local_witness :
    process_scene ⟨true, 3, true, true, 0⟩ = none
    ∧ process_scene ⟨true, 5, true, false, 2⟩ = some ⟨min 5 2, 5⟩ :=
  ⟨(C4_image_branch_unbound_local ⟨true, 3, true, true, 0⟩).1 rfl,
   ((C4_image_branch_unbound_local ⟨true, 5, true, false, 2⟩).2 rfl rfl rfl
      (by norm_num) (by norm_num)).1⟩

/-- A clip that `limpiar_audio_invalido` maps to `None` was already rejected
by `validar_clip_recursivo`. -/
theorem limpiar_none_validar : ∀ v : VClip, limpiar v = none → validar v = false
  | .vnull, _ => rfl
  | .vraw hg audio, h => by simp [limpiar] at h
  | .vcomposite cs audio, h => by
    cases cs with
    | nil => simp [limpiar] at h
    | cons c rest =>
      cases hll : limpiarList (c :: rest) with
      | cons x xs => simp [limpiar, hll] at h
      | nil =>
        cases hc : limpiar c with
        | some c2 => simp [limpiarList, hc] at hll
        | none =>
          have hv := limpiar_none_validar c hc
          simp [validar, validarList, hv]

/-- C5.  The claim fails on the code: an invalid audio attachment is removed
outright (`without_audio`), never replaced by the claimed one-second silence
fallback.  Concrete input: a valid video clip whose audio lacks
`get_frame` — the code's cleaner yields a silent clip, while the
claim-worded sanitizer would attach 1s of silence. -/
theorem C5_counterexample :
    clean_audio (some (.araw false)) = none
    ∧ sanitize_audio_spec (some (.araw false)) = some (.asilence 1)
    ∧ limpiar (.vraw true (some (.araw false))) = some (.vraw true none)
    ∧ (none : Option AClip) ≠ some (.asilence 1) := by
  refine ⟨?_, ?_, ?_, by simp⟩
  · simp [clean_audio, audioInvalido, hasGetFrameA]
  · simp [sanitize_audio_spec, audioInvalido, hasGetFrameA]
  · simp [limpiar, clean_audio, audioInvalido, hasGetFrameA]

/-- C5 (amended).  The sanitization boundary recursively cleans composite
children, dropping every null/invalid child while keeping the survivors in
order; a composite with at least one surviving child is rebuilt from exactly
those survivors; an invalid audio attachment is removed entirely — no
silence or solid-frame fallback is inserted anywhere; and a node with no
valid children left yields `InvalidMedia` instead of reaching the encoder. -/
theorem C5_sanitizer_removes_without_fallback :
    (∀ cs : List VClip, limpiarList cs = cs.filterMap limpiar)
    ∧ (∀ (cs : List VClip) (audio : Option AClip), cs ≠ [] → limpiarList cs ≠ [] →
        limpiar (.vcomposite cs audio) = some (.vcomposite (limpiarList cs) none))
    ∧ (∀ (hg : Bool) (a : AClip), audioInvalido a = true →
        limpiar (.vraw hg (some a)) = some (.vraw hg none))
    ∧ (∀ v : VClip, limpiar v = none → sanitize_final v = .error .InvalidMedia) := by
  refine ⟨?_, ?_, ?_, ?_⟩
  · intro cs
    induction cs with
    | nil => rfl
    | cons c rest ih =>
      cases hc : limpiar c with
      | none => simp [limpiarList, List.filterMap_cons, hc, ih]
      | some c2 => simp [limpiarList, List.filterMap_cons, hc, ih]
  · intro cs audio hcs hll
    cases cs with
    | nil => exact absurd rfl hcs
    | cons c rest =>
      cases hl : limpiarList (c :: rest) with
      | nil => exact absurd hl hll
      | cons x xs => simp [limpiar, hl]
  · intro hg a ha
    simp [limpiar, clean_audio, ha]
  · intro v hv
    simp [sanitize_final, limpiar_none_validar v hv, hv]

/-- Witness for C5 (amended): the cleaner silences (not falls back) a clip
with invalid audio, and a composite whose only child is `None` is rejected
as `InvalidMedia` before the encode. -/
theorem C5_sanitizer_removes_without_fallback_witness :
    limpiar (.vcomposite [.vnull, .vraw true none] none)
        = some (.vcomposite [.vraw true none] none)
    ∧ sanitize_final (.vcomposite [.vnull] none) = .error .InvalidMedia :=
  ⟨by
    have h := C5_sanitizer_removes_without_fallback.2.1 [.vnull, .vraw true none] none
      (by simp) (by simp [limpiarList, limpiar])
    rw [h]
    simp [limpiarList, limpiar, clean_audio],
   C5_sanitizer_removes_without_fallback.2.2.2 _ (by simp [limpiar, limpiarList])⟩

/-- C6.  Background music shorter than the target `T` is looped by whole
repetitions to at least `T` and then trimmed to exactly `T`; with narration
present the music gain is the fixed `0.1`; without narration the configured
positive volume is used, and full volume when none is configured. -/
theorem C6_music_loop_trim_ducking (musicLen T vol : ℚ) (hm : 0 < musicLen) :
    (musicLen < T →
        T ≤ (loops_needed T musicLen : ℚ) * musicLen
        ∧ music_conformed_duration musicLen T = T)
    ∧ music_gain true vol = 1/10
    ∧ (0 < vol → music_gain false vol = vol)
    ∧ music_gain false 0 = 1 := by
  refine ⟨?_, rfl, ?_, by norm_num [music_gain]⟩
  · intro hlt
    have hT : 0 < T := lt_trans hm hlt
    have hle := le_loops_needed_mul T musicLen hT hm
    exact ⟨hle, by simp [music_conformed_duration, hlt, min_eq_right hle]⟩
  · intro hv
    simp [music_gain, hv]

/-- Witness for C6 at Scenario D's numbers: 5s music against `T = 22` loops
to 25s ≥ 22s and trims to exactly 22s, ducked to 10% while narration plays;
without narration a configured 30% plays at 30%, an unset (zero) volume at
100%. -/
theorem C6_music_loop_trim_ducking_witness :
    ((22 : ℚ) ≤ (loops_needed 22 5 : ℚ) * 5 ∧ music_conformed_duration 5 22 = 22)
    ∧ music_gain true (3/10) = 1/10
    ∧ music_gain false (3/10) = 3/10
    ∧ music_gain false 0 = 1 :=
  ⟨(C6_music_loop_trim_ducking 5 22 (3/10) (by norm_num)).1 (by norm_num),
   (C6_music_loop_trim_ducking 5 22 (3/10) (by norm_num)).2.1,
   (C6_music_loop_trim_ducking 5 22 (3/10) (by norm_num)).2.2.1 (by norm_num),
   (C6_music_loop_trim_ducking 5 22 (3/10) (by norm_num)).2.2.2⟩

/-- Every grouped caption line holds between one and five words. -/
theorem chunk5_mem : ∀ (l : List CaptionWord), ∀ line ∈ chunk5 l, line.length ≤ 5 ∧ line ≠ []
  | [], line, h => by simp [chunk5] at h
  | [a], line, h => by simp [chunk5] at h; subst h; simp
  | [a, b], line, h => by simp [chunk5] at h; subst h; simp
  | [a, b, c], line, h => by simp [chunk5] at h; subst h; simp
  | [a, b, c, d], line, h => by simp [chunk5] at h; subst h; simp
  | a :: b :: c :: d :: e :: rest, line, h => by
      simp only [chunk5, List.mem_cons] at h
      rcases h with rfl | h
      · simp
      · exact chunk5_mem rest line h

/-- Flattening the grouped lines restores the original word list. -/
theorem chunk5_flatten : ∀ l : List CaptionWord, (chunk5 l).flatten = l
  | [] => rfl
  | [_] => rfl
  | [_, _] => rfl
  | [_, _, _] => rfl
  | [_, _, _, _] => rfl
  | a :: b :: c :: d :: e :: rest => by
      simp [chunk5, chunk5_flatten rest]

/-- Each word of a line yields one overlay spanning that word's own
`[start, end)` interval. -/
theorem lineOverlaysAux_startdur (y : ℚ) (L : ℕ) :
    ∀ (j : ℕ) (ws : List CaptionWord),
      (lineOverlaysAux y L j ws).map (fun o => (o.start, o.dur))
        = ws.map (fun w => (w.start, w.stop - w.start))
  | _, [] => rfl
  | j, w :: ws => by
      simp [lineOverlaysAux, mkWordOverlay, lineOverlaysAux_startdur y L (j + 1) ws]

/-- Every overlay of a line sits at the line's anchor and uses the highlight
size exactly when it is highlighted. -/
theorem lineOverlaysAux_mem (y : ℚ) (L : ℕ) :
    ∀ (j : ℕ) (ws : List CaptionWord) (o : Overlay), o ∈ lineOverlaysAux y L j ws →
      o.y = y ∧ o.fontsize = (if o.highlighted then highlight_fontsize else base_fontsize)
  | _, [], o, h => by simp [lineOverlaysAux] at h
  | j, w :: ws, o, h => by
      rcases List.mem_cons.mp h with rfl | h'
      · simp [mkWordOverlay]
      · exact lineOverlaysAux_mem y L (j + 1) ws o h'

/-- The highlight flags of a line's overlays, positionally: overlay `i` is
highlighted iff `i` is the designated index `L`. -/
theorem lineOverlaysAux_highlighted (y : ℚ) (L : ℕ) :
    ∀ (j : ℕ) (ws : List CaptionWord),
      (lineOverlaysAux y L j ws).map Overlay.highlighted
        = (List.range' j ws.length).map (fun i => i == L)
  | _, [] => rfl
  | j, w :: ws => by
      simp [lineOverlaysAux, mkWordOverlay, List.range',
        lineOverlaysAux_highlighted y L (j + 1) ws]

/-- Timing of all overlays across grouped lines, flattened. -/
theorem flatMap_lineOverlays_startdur (y : ℚ) :
    ∀ lines : List (List CaptionWord),
      ((lines.flatMap (lineOverlays y)).map (fun o => (o.start, o.dur)))
        = (lines.flatten).map (fun w => (w.start, w.stop - w.start))
  | [] => rfl
  | line :: rest => by
      simp [List.flatMap_cons, flatMap_lineOverlays_startdur y rest,
        lineOverlays, lineOverlaysAux_startdur]

/-- Highlight flags of all overlays across grouped lines. -/
theorem flatMap_lineOverlays_highlighted (y : ℚ) :
    ∀ lines : List (List CaptionWord),
      (lines.flatMap (lineOverlays y)).map Overlay.highlighted
        = lines.flatMap (fun line =>
            (List.range line.length).map (fun j => j == line.length - 1))
  | [] => rfl
  | line :: rest => by
      simp [List.flatMap_cons, flatMap_lineOverlays_highlighted y rest,
        lineOverlays, lineOverlaysAux_highlighted, List.range_eq_range']

/-- C7.  The claim fails on the code.  With words "hello" `[0,1)` and
"world" `[1,2)` on a 1920-pixel-high canvas, the overlay for "hello" — the
only thing on screen while "hello" is being spoken — renders in the base
style, not highlighted (only the last word of each 5-word group gets the
highlight style), and the vertical anchor is `0.85 · height`, not the
claimed 75% of canvas height. -/
theorem C7_counterexample :
    (¬ ∀ o ∈ generate_karaoke_subtitles [⟨"hello", 0, 1⟩, ⟨"world", 1, 2⟩] 1920,
        o.highlighted = true ∧ o.y = (75 * 1920 : ℚ) / 100)
    ∧ karaoke_y 1920 ≠ (75 * 1920 : ℚ) / 100 := by
  constructor
  · intro h
    rcases h (mkWordOverlay (karaoke_y 1920) false ⟨"hello", 0, 1⟩)
        (by simp [generate_karaoke_subtitles, chunk5, lineOverlays,
          lineOverlaysAux]) with ⟨h1, _⟩
    simp [mkWordOverlay] at h1
  · norm_num [karaoke_y]

/-- C7 (amended).  Words are grouped into lines of at most 5; each word
becomes its own timed overlay spanning exactly that word's `[start, end)`
interval; every overlay is anchored at 85% of canvas height; within each
line exactly the *last* word carries the highlight style, rendered at
`int(70 · 1.3) = 91` (30% larger than the base 70) — all other words of the
line keep the base style even while they are the ones being spoken. -/
theorem C7_karaoke_layout (words : List CaptionWord) (height : ℕ) :
    (∀ line ∈ chunk5 words, line.length ≤ 5 ∧ line ≠ [])
    ∧ (generate_karaoke_subtitles words height).map (fun o => (o.start, o.dur))
        = words.map (fun w => (w.start, w.stop - w.start))
    ∧ (∀ o ∈ generate_karaoke_subtitles words height,
        o.y = karaoke_y height
        ∧ o.fontsize = (if o.highlighted then highlight_fontsize else base_fontsize))
    ∧ (generate_karaoke_subtitles words height).map Overlay.highlighted
        = (chunk5 words).flatMap (fun line =>
            (List.range line.length).map (fun j => j == line.length - 1))
    ∧ highlight_fontsize = 91 ∧ base_fontsize = 70 := by
  refine ⟨chunk5_mem words, ?_, ?_, ?_, rfl, rfl⟩
  · rw [generate_karaoke_subtitles, flatMap_lineOverlays_startdur, chunk5_flatten]
  · intro o ho
    rw [generate_karaoke_subtitles] at ho
    rcases List.mem_flatMap.mp ho with ⟨line, _, hline⟩
    exact lineOverlaysAux_mem (karaoke_y height) (line.length - 1) 0 line o hline
  · rw [generate_karaoke_subtitles, flatMap_lineOverlays_highlighted]

/-- Witness for C7 (amended) on a concrete two-word scene. -/
theorem C7_karaoke_layout_witness :
    (generate_karaoke_subtitles [⟨"hello", 0, 1⟩, ⟨"world", 1, 2⟩] 1920).map
        (fun o => (o.start, o.dur))
      = [((0 : ℚ), (1 : ℚ)), (1, 1)] := by
  have h := (C7_karaoke_layout [⟨"hello", 0, 1⟩, ⟨"world", 1, 2⟩] 1920).2.1
  rw [h]
  norm_num

/-- C8.  The claim fails on the code: the zoom for direction `out` runs from
`zoom_start = 1.0` down to `zoom_end = 0.9`, not from 1.10 to 1.00 as
claimed.  Moreover, for `out` the zoomed image can end narrower than the
canvas (here 1000·0.9 = 900 < 1000), so the visible window exceeds the
zoomed bounds no matter the pan offset. -/
theorem C8_counterexample :
    zoom_factor "out" 0 = 1
    ∧ zoom_factor "out" 1 = 9/10
    ∧ (1 : ℚ) ≠ 11/10
    ∧ (9/10 : ℚ) ≠ 1
    ∧ pan_offset 1000 1000 "out" 1 = 0
    ∧ 1000 * zoom_factor "out" 1 - 1000 < 0 := by
  have hso : ¬ ("out" : String) = "in" := by decide
  norm_num [zoom_factor, zoom_end, pan_offset, pan_range, hso]

/-- C8 (amended).  The ease-in-out zoom runs from 1.00 to 1.10 for `in` and
from 1.00 to 0.90 for `out`; horizontal pan is applied exactly when the
image aspect ratio exceeds 1.3; and for direction `in` (the one the scene
pipeline uses) the pan offset always stays within
`[0, zoomed_width - target_width]`, so the visible window never exceeds the
zoomed image bounds. -/
theorem C8_ken_burns_zoom_pan (s W T : ℚ) (hs0 : 0 ≤ s) (hs1 : s ≤ 1)
    (hT : 0 ≤ T) (hWT : T ≤ W) :
    zoom_factor "in" 0 = 1
    ∧ zoom_factor "in" 1 = 11/10
    ∧ zoom_factor "out" 0 = 1
    ∧ zoom_factor "out" 1 = 9/10
    ∧ (∀ iw ih : ℚ, pan_enabled iw ih = true ↔ 13/10 < iw / ih)
    ∧ 0 ≤ pan_offset W T "in" s
    ∧ pan_offset W T "in" s + T ≤ W * zoom_factor "in" s := by
  have hW0 : 0 ≤ W := le_trans hT hWT
  have hso : ¬ ("out" : String) = "in" := by decide
  refine ⟨by norm_num [zoom_factor, zoom_end], by norm_num [zoom_factor, zoom_end],
    by norm_num [zoom_factor, zoom_end, hso], by norm_num [zoom_factor, zoom_end, hso],
    ?_, ?_, ?_⟩
  · intro iw ih
    simp [pan_enabled]
  · exact mul_nonneg (le_max_left 0 _) hs0
  · have hfloor : ((⌊W * zoom_end "in"⌋ : ℚ)) ≤ W * zoom_end "in" := Int.floor_le _
    have hze : zoom_end "in" = 11/10 := by norm_num [zoom_end]
    rw [hze] at hfloor
    have hpr : pan_range W T "in" ≤ 11/10 * W - T := by
      unfold pan_range
      rw [hze]
      apply max_le
      · nlinarith
      · nlinarith
    have h1 : pan_range W T "in" * s ≤ (11/10 * W - T) * s :=
      mul_le_mul_of_nonneg_right hpr hs0
    have hzf : zoom_factor "in" s = 1 + 1/10 * s := by
      norm_num [zoom_factor, zoom_end]
    unfold pan_offset
    rw [hzf]
    nlinarith [mul_nonneg (sub_nonneg.mpr hWT) (sub_nonneg.mpr hs1)]

/-- Witness for C8 (amended): half-way through the ease on a 2000-wide
scaled image over a 1000-wide canvas the pan offset stays within the zoomed
bounds. -/
theorem C8_ken_burns_zoom_pan_witness :
    0 ≤ pan_offset 2000 1000 "in" (1/2)
    ∧ pan_offset 2000 1000 "in" (1/2) + 1000 ≤ 2000 * zoom_factor "in" (1/2) :=
  ⟨(C8_ken_burns_zoom_pan (1/2) 2000 1000 (by norm_num) (by norm_num) (by norm_num)
      (by norm_num)).2.2.2.2.2.1,
   (C8_ken_burns_zoom_pan (1/2) 2000 1000 (by norm_num) (by norm_num) (by norm_num)
      (by norm_num)).2.2.2.2.2.2⟩

/-- C9.  The claim fails on the code: `_compute_position` subtracts the
element size and margin from the canvas size without clamping, so an
1100-wide element on a 1080-wide canvas at `bottom-right` is placed at
`x = 1080 - 1100 - 50 = -70`, outside `[0, canvas_width]`. -/
theorem C9_counterexample :
    (compute_position "bottom-right" 1080 1920 1100 50).1 < 0 := by
  norm_num [compute_position]

/-- C9 (amended).  For every position keyword (including the default
branch), the computed coordinates lie within
`[0, canvas_width] × [0, canvas_height]` **provided** the element fits
inside the canvas with its margins: `elem_w + 50 ≤ W` and
`elem_h + 100 ≤ H`. -/
theorem C9_watermark_bounds (pos : String) (W H ew eh : ℚ)
    (hew0 : 0 ≤ ew) (hewW : ew + 50 ≤ W) (heh0 : 0 ≤ eh) (hehH : eh + 100 ≤ H) :
    0 ≤ (compute_position pos W H ew eh).1
    ∧ (compute_position pos W H ew eh).1 ≤ W
    ∧ 0 ≤ (compute_position pos W H ew eh).2
    ∧ (compute_position pos W H ew eh).2 ≤ H := by
  refine ⟨?_, ?_, ?_, ?_⟩ <;>
    · unfold compute_position
      split_ifs <;> simp <;> linarith

/-- Witness for C9 (amended): a 200×100 element at `top-center` on a
1080×1920 canvas stays in frame. -/
theorem C9_watermark_bounds_witness :
    0 ≤ (compute_position "top-center" 1080 1920 200 100).1
    ∧ (compute_position "top-center" 1080 1920 200 100).1 ≤ 1080
    ∧ 0 ≤ (compute_position "top-center" 1080 1920 200 100).2
    ∧ (compute_position "top-center" 1080 1920 200 100).2 ≤ 1920 :=
  C9_watermark_bounds "top-center" 1080 1920 200 100 (by norm_num) (by norm_num)
    (by norm_num) (by norm_num)

/-- C10.  Every successful encode uses `fps=60`, `codec='libx264'`,
`audio_codec='aac'`, `audio_bitrate='320k'`; the video bitrate is the
caller's value when one is supplied (non-empty), else the default
`'15000k'`. -/
theorem C10_encode_settings_fixed (bitrate : Option String) :
    (encode_settings bitrate).fps = 60
    ∧ (encode_settings bitrate).codec = "libx264"
    ∧ (encode_settings bitrate).audioCodec = "aac"
    ∧ (encode_settings bitrate).audioBitrate = "320k"
    ∧ (encode_settings none).videoBitrate = "15000k"
    ∧ ∀ b : String, b ≠ "" → (encode_settings (some b)).videoBitrate = b := by
  refine ⟨rfl, rfl, rfl, rfl, rfl, ?_⟩
  intro b hb
  simp [encode_settings, hb]

/-- Witness for C10 at a caller-supplied bitrate. -/
theorem C10_encode_settings_fixed_witness :
    (encode_settings (some "8000k")).videoBitrate = "8000k"
    ∧ (encode_settings (some "8000k")).fps = 60 :=
  ⟨(C10_encode_settings_fixed (some "8000k")).2.2.2.2.2 "8000k" (by decide),
   (C10_encode_settings_fixed (some "8000k")).1⟩

end VideoEditor
